import Mathlib

/-!
Verification of the MakerScape Blender utilities against their
natural-language specification.

The development shallowly embeds the three add-on source files:
  * `RandomizeHue.py`         — hue/attribute assigner,
  * `ApplyMaterialToChildren.py` — hierarchy material applier,
  * `RandomizeChildrenSize.py` — child scale randomizer.

Host (Blender) state is modelled explicitly: meshes carry material slot
lists, named attributes and color attributes; scene objects carry a name,
a type tag, a parent link and their mesh data.  Floating-point scalars are
modelled as rationals; the host's pseudo-random source is a parameter
(`u`), a pure function of the seed and the draw index, which captures
exactly the determinism of a seeded sequential generator.  A `faulty`
flag on an object models a host-level exception raised while that object
is being processed.
-/

namespace MakerScape

/-! ## Name-pattern matching (`RandomizeHue.py`, `_targets_by_name`)

The source compiles, for each non-blank configured base name, the Python
regex `^<escaped base>(?: \d+)?$` with `re.IGNORECASE` and accepts an
object whose name fully matches one of the compiled patterns.  Case
folding is modelled by lowering both sides. -/

/-- ASCII case fold of a string, as applied by `re.IGNORECASE`. -/
def lowerChars (s : String) : List Char := s.toList.map Char.toLower

/-- The portion of the compiled pattern after the escaped base name:
`(?: \d+)?$` matches either the empty remainder or a single space
followed by one or more digits. -/
def suffixOk : List Char → Bool
  | [] => true
  | c :: ds => c == ' ' && !ds.isEmpty && ds.all Char.isDigit

/-- The name rule built in `OBJ_OT_assign_hue_material._targets_by_name`
for one base name: full match of `^base(?: \d+)?$`, case-insensitively. -/
def matchesBase (base name : String) : Bool :=
  (lowerChars name).take (lowerChars base).length == lowerChars base
    && suffixOk ((lowerChars name).drop (lowerChars base).length)

/-! ## Object hierarchy traversal (`ApplyMaterialToChildren.py`, `iter_hierarchy`) -/

/-- A scene object subtree: the object itself plus the ordered list of its
child subtrees (`obj.children` in the host's object graph, which is
guaranteed acyclic by the host's ownership model). -/
inductive OTree (α : Type) where
  | node (val : α) (children : List (OTree α))

namespace OTree

def val {α : Type} : OTree α → α
  | .node v _ => v

def children {α : Type} : OTree α → List (OTree α)
  | .node _ cs => cs

end OTree

mutual

/-- All nodes of a subtree: the root followed by the nodes of each child
subtree, in child order.  Canonical enumeration used to state what the
stack traversal must visit. -/
def subnodes {α : Type} : OTree α → List (OTree α)
  | .node v cs => .node v cs :: subnodesList cs

/-- All nodes of each subtree in a list of subtrees, concatenated. -/
def subnodesList {α : Type} : List (OTree α) → List (OTree α)
  | [] => []
  | t :: ts => subnodes t ++ subnodesList ts

end

/-- The transitive descendants of a node: all nodes of its child subtrees. -/
def descendants {α : Type} : OTree α → List (OTree α)
  | .node _ cs => subnodesList cs

mutual

def treeSize {α : Type} : OTree α → Nat
  | .node _ cs => 1 + listSize cs

def listSize {α : Type} : List (OTree α) → Nat
  | [] => 0
  | t :: ts => treeSize t + listSize ts

end

theorem listSize_append {α : Type} (l₁ l₂ : List (OTree α)) :
    listSize (l₁ ++ l₂) = listSize l₁ + listSize l₂ := by
  induction l₁ with
  | nil => simp [listSize]
  | cons t ts ih => simp [listSize, ih]; omega

theorem listSize_reverse {α : Type} (l : List (OTree α)) :
    listSize l.reverse = listSize l := by
  induction l with
  | nil => rfl
  | cons t ts ih =>
      simp [List.reverse_cons, listSize_append, listSize, ih]
      omega

/-- The explicit-stack loop of `iter_hierarchy`: pop an object off the end
of the stack, yield it, and extend the stack with its children (so the
last child is popped next).  The stack is modelled head-first, hence the
children are pushed reversed. -/
def iterStack {α : Type} : List (OTree α) → List (OTree α)
  | [] => []
  | .node v cs :: rest => .node v cs :: iterStack (cs.reverse ++ rest)
termination_by l => listSize l
decreasing_by
  simp only [listSize, treeSize, listSize_append, listSize_reverse]
  omega

/-- `iter_hierarchy(root_obj)`: yield `root_obj` and all its descendants,
driven by an explicit stack seeded with the root. -/
def iter_hierarchy {α : Type} (root : OTree α) : List (OTree α) :=
  iterStack [root]

theorem subnodesList_append {α : Type} (l₁ l₂ : List (OTree α)) :
    subnodesList (l₁ ++ l₂) = subnodesList l₁ ++ subnodesList l₂ := by
  induction l₁ with
  | nil => simp [subnodesList]
  | cons t ts ih => simp [subnodesList, ih]

theorem subnodesList_perm {α : Type} {l₁ l₂ : List (OTree α)} (h : l₁.Perm l₂) :
    (subnodesList l₁).Perm (subnodesList l₂) := by
  induction h with
  | nil => exact List.Perm.refl _
  | cons t _ ih => simp only [subnodesList]; exact List.Perm.append_left _ ih
  | swap t₁ t₂ l =>
      simp only [subnodesList, ← List.append_assoc]
      exact List.Perm.append_right _ (List.perm_append_comm)
  | trans _ _ ih₁ ih₂ => exact ih₁.trans ih₂

theorem iterStack_perm {α : Type} (l : List (OTree α)) :
    (iterStack l).Perm (subnodesList l) := by
  match l with
  | [] => rw [iterStack.eq_1]; exact List.Perm.refl _
  | .node v cs :: rest =>
      rw [iterStack.eq_2]
      show (_ :: iterStack (cs.reverse ++ rest)).Perm
        (OTree.node v cs :: (subnodesList cs ++ subnodesList rest))
      have ih := iterStack_perm (cs.reverse ++ rest)
      refine List.Perm.cons _ (ih.trans ?_)
      rw [subnodesList_append]
      exact List.Perm.append_right _ (subnodesList_perm (List.reverse_perm cs))
termination_by listSize l
decreasing_by
  simp only [listSize, treeSize, listSize_append, listSize_reverse]
  omega

theorem subnodes_eq_cons {α : Type} (t : OTree α) :
    subnodes t = t :: descendants t := by
  match t with
  | .node v cs => rfl

theorem iter_hierarchy_perm {α : Type} (t : OTree α) :
    (iter_hierarchy t).Perm (subnodes t) := by
  have h := iterStack_perm [t]
  rw [subnodesList, subnodesList, List.append_nil] at h
  exact h

/-! ## Material assignment (`ApplyMaterialToChildren.py`)

Materials are identified by `Nat` handles.  A data block's
`materials` field is `none` for data types with no material-slot
collection; an object's `data` field is `none` for objects with no data
block.  The `faulty` flag models a host exception raised while the
object is being processed (caught per-node by the operator's loop). -/

/-- A data block: possibly carrying an ordered material-slot collection. -/
structure AData where
  materials : Option (List Nat)
deriving DecidableEq

/-- A scene object as seen by the hierarchy material applier. -/
structure AObj where
  name : String
  data : Option AData
  active_material : Option Nat
  faulty : Bool
deriving DecidableEq

/-- `apply_material_to_object(obj, mat)`: no-op without a data block or a
slot collection; otherwise append one slot if empty, else overwrite every
slot, and set the active material. -/
def apply_material_to_object (obj : AObj) (mat : Nat) : AObj :=
  match obj.data with
  | none => obj
  | some d =>
    match d.materials with
    | none => obj
    | some mats =>
      let mats2 := if mats.isEmpty then mats ++ [mat] else mats.map (fun _ => mat)
      { obj with data := some { d with materials := some mats2 },
                 active_material := some mat }

/-- The per-node loop of `AMC_OT_apply_material_hierarchy.execute`: each
node is processed inside `try/except` (a faulty node is logged and
skipped), and the node is counted when, after the call, its data block
exposes a slot collection. -/
def amcApplyAll (mat : Nat) : List AObj → List AObj × Nat
  | [] => ([], 0)
  | o :: rest =>
    let r := amcApplyAll mat rest
    if o.faulty then (o :: r.1, r.2)
    else
      let o2 := apply_material_to_object o mat
      (o2 :: r.1, if (o2.data.bind AData.materials).isSome then r.2 + 1 else r.2)

/-- Result of the hierarchy applier: whether the run was cancelled by a
precondition, the processed hierarchy payloads in traversal order, and
the count shown in the INFO report when the run completed. -/
structure AmcResult where
  cancelled : Bool
  objects : List AObj
  reportedCount : Option Nat
deriving DecidableEq

/-- `AMC_OT_apply_material_hierarchy.execute`: resolve the target (chosen
object, falling back to the active one), require a material, then apply
the material over `iter_hierarchy(target)`. -/
def amcExecute (target active : Option (OTree AObj)) (material : Option Nat) :
    AmcResult :=
  match (match target with | some t => some t | none => active) with
  | none => ⟨true, [], none⟩
  | some t =>
    match material with
    | none => ⟨true, [], none⟩
    | some mat =>
      let r := amcApplyAll mat ((iter_hierarchy t).map OTree.val)
      ⟨false, r.1, some r.2⟩

/-! ## Child scale randomizer (`RandomizeChildrenSize.py`)

Scalars are rationals; the unseeded module-level random source is a
parameter `u` giving the `k`-th raw draw in `[0,1)`, so that
`random.uniform(a, b) = a + (b - a) * u k`. -/

/-- A scene object as seen by the scale randomizer. -/
structure RcsObj where
  name : String
  scale : ℚ × ℚ × ℚ
  parent : Option String
  faulty : Bool
deriving DecidableEq

/-- The scene-level inputs of the randomizer. -/
structure RcsScene where
  objects : List RcsObj
  active : Option String
  rcs_parent_object : Option String
  rcs_min_scale : ℚ
  rcs_max_scale : ℚ
  rcs_scale_mode : String

/-- `random.uniform(a, b)` given the `k`-th raw unit draw `u k`. -/
def uniformDraw (u : Nat → ℚ) (k : Nat) (a b : ℚ) : ℚ :=
  a + (b - a) * u k

/-- One child's scale update: multiply all three axes by `f`, or set all
three axes to `f`, per the mode. -/
def rcsScaleChild (mode : String) (f : ℚ) (o : RcsObj) : RcsObj :=
  if mode == "MULTIPLY" then
    { o with scale := (o.scale.1 * f, o.scale.2.1 * f, o.scale.2.2 * f) }
  else
    { o with scale := (f, f, f) }

/-- The per-child loop of `RCS_OT_randomize_children_scale.execute`,
walking the scene list: each object satisfying `p` (being a direct child
of the chosen parent) consumes one draw; a faulty child is logged and
left unchanged (the draw was already consumed inside the `try` block). -/
def rcsLoop (u : Nat → ℚ) (a b : ℚ) (mode : String) (p : RcsObj → Bool) :
    List RcsObj → Nat → List RcsObj
  | [], _ => []
  | o :: rest, k =>
    if p o then
      (if o.faulty then o else rcsScaleChild mode (uniformDraw u k a b) o)
        :: rcsLoop u a b mode p rest (k + 1)
    else o :: rcsLoop u a b mode p rest k

/-- Result of the randomizer: status, scene objects after the run, the
report level, and the count in the INFO report (the source reports
`len(children)`). -/
structure RcsResult where
  status : String
  objects : List RcsObj
  reportLevel : String
  reportedCount : Option Nat
deriving DecidableEq

/-- Direct-child test against the resolved parent name. -/
def isChildOf (par : String) (o : RcsObj) : Bool :=
  o.parent == some par

/-- `parent = scene.rcs_parent_object or context.view_layer.objects.active`. -/
def resolvedParent (s : RcsScene) : Option String :=
  match s.rcs_parent_object with
  | some p => some p
  | none => s.active

/-- `RCS_OT_randomize_children_scale.execute`: resolve the parent (chosen
or active), swap inverted bounds, abort with a warning when there are no
direct children, else randomize each child and report `len(children)`. -/
def rcsExecute (u : Nat → ℚ) (s : RcsScene) : RcsResult :=
  match resolvedParent s with
  | none => ⟨"CANCELLED", s.objects, "ERROR", none⟩
  | some par =>
    let mm := if s.rcs_min_scale > s.rcs_max_scale
      then (s.rcs_max_scale, s.rcs_min_scale)
      else (s.rcs_min_scale, s.rcs_max_scale)
    let children := s.objects.filter (isChildOf par)
    if children.isEmpty then ⟨"CANCELLED", s.objects, "WARNING", none⟩
    else
      ⟨"FINISHED", rcsLoop u mm.1 mm.2 s.rcs_scale_mode (isChildOf par) s.objects 0,
        "INFO", some children.length⟩

/-! ## Hue/attribute assigner (`RandomizeHue.py`)

Mesh data blocks carry a vertex count (`points`, the POINT-domain size),
a loop count (`corners`, the CORNER-domain size), material slots, named
generic attributes and named color attributes.  The seeded random source
`random.Random(seed)` is a parameter `u : Nat → Nat → ℚ` giving the
`k`-th raw unit draw of the stream seeded with `seed`, so that
`rnd.uniform(a, b)` for the `k`-th call is `a + (b - a) * u seed k`. -/

/-- An entry of `mesh.color_attributes`. -/
structure ColorAttribute where
  name : String
  domain : String
  data_type : String
  data : List (ℚ × ℚ × ℚ × ℚ)
deriving DecidableEq

/-- An entry of `mesh.attributes` (scalar case). -/
structure MeshAttribute where
  name : String
  data_type : String
  domain : String
  data : List ℚ
deriving DecidableEq

/-- A mesh data block. -/
structure Mesh where
  points : Nat
  corners : Nat
  materials : List Nat
  attributes : List MeshAttribute
  color_attributes : List ColorAttribute
deriving DecidableEq

/-- `ensure_color_attribute(mesh, name)`: when no color attribute of that
name exists, create one (CORNER domain, BYTE_COLOR type, one entry per
loop, host-default contents) and set every entry to opaque white;
otherwise leave the mesh untouched. -/
def ensure_color_attribute (m : Mesh) (can : String) : Mesh :=
  match m.color_attributes.find? (fun a => a.name == can) with
  | some _ => m
  | none =>
      let created : ColorAttribute :=
        ⟨can, "CORNER", "BYTE_COLOR", List.replicate m.corners (0, 0, 0, 0)⟩
      let filled : ColorAttribute :=
        { created with data := created.data.map (fun _ => (1, 1, 1, 1)) }
      { m with color_attributes := m.color_attributes ++ [filled] }

/-- `write_uniform_float_attribute(mesh, attr_name, value)`: reuse an
existing FLOAT/POINT attribute of that name, else remove any differently
typed attribute of that name and create a fresh FLOAT/POINT one; then set
every entry to `value`. -/
def write_uniform_float_attribute (m : Mesh) (attrName : String) (value : ℚ) : Mesh :=
  match m.attributes.find? (fun a => a.name == attrName) with
  | some attr =>
      if attr.data_type == "FLOAT" && attr.domain == "POINT" then
        { m with attributes := m.attributes.map (fun a =>
            if a.name == attrName then { a with data := a.data.map (fun _ => value) } else a) }
      else
        let rest := m.attributes.filter (fun a => !(a.name == attrName))
        let created : MeshAttribute := ⟨attrName, "FLOAT", "POINT", List.replicate m.points 0⟩
        { m with attributes := rest ++ [{ created with data := created.data.map (fun _ => value) }] }
  | none =>
      let created : MeshAttribute := ⟨attrName, "FLOAT", "POINT", List.replicate m.points 0⟩
      { m with attributes := m.attributes ++ [{ created with data := created.data.map (fun _ => value) }] }

/-- The slot assignment in the hue loop: `me.materials[0] = mat` when a
slot exists, else `me.materials.append(mat)`. -/
def hueAssignMaterial (m : Mesh) (mat : Nat) : Mesh :=
  if m.materials.isEmpty then { m with materials := m.materials ++ [mat] }
  else { m with materials := m.materials.set 0 mat }

/-- A scene object as seen by the hue assigner. -/
structure HueObj where
  name : String
  objType : String
  parent : Option String
  data : Mesh
  faulty : Bool
deriving DecidableEq

/-- The body of the hue assigner's per-object loop, for a drawn value
`hue`: ensure the color attribute, assign the material slot, write the
uniform `hue_adjust` attribute (the final `me.update()` is a host
redraw hint with no scene-model effect). -/
def processHueObj (can : String) (mat : Nat) (hue : ℚ) (o : HueObj) : HueObj :=
  let m1 := ensure_color_attribute o.data can
  let m2 := hueAssignMaterial m1 mat
  let m3 := write_uniform_float_attribute m2 "hue_adjust" hue
  { o with data := m3 }

/-- Name-mode target test: a mesh object whose name matches at least one
non-blank configured base-name pattern. -/
def isMeshNameTarget (bases : List String) (o : HueObj) : Bool :=
  o.objType == "MESH" && bases.any (fun bn => !(bn.trim == "") && matchesBase bn.trim o.name)

/-- Children-mode target test: a mesh object that is a direct child of
the resolved parent. -/
def isMeshChildTarget (par : String) (o : HueObj) : Bool :=
  o.parent == some par && o.objType == "MESH"

/-- Outcome of the per-object assignment loop: the scene objects after
the loop, the number of objects processed, and whether the loop ran to
completion (`ok = false` models an uncaught exception propagating out of
the loop). -/
structure HueLoopOut where
  objects : List HueObj
  count : Nat
  ok : Bool
deriving DecidableEq

/-- The per-object loop of `OBJ_OT_assign_hue_material.execute`, walking
the scene list: each target consumes the next sequential draw of the
seeded source and is processed by `processHueObj`; there is no per-object
`try/except`, so a faulty target stops the loop, leaving it and every
later object untouched. -/
def hueLoopScene (u : Nat → Nat → ℚ) (seed : Nat) (a b : ℚ) (can : String) (mat : Nat)
    (p : HueObj → Bool) : List HueObj → Nat → HueLoopOut
  | [], _ => ⟨[], 0, true⟩
  | o :: rest, k =>
    if p o then
      if o.faulty then ⟨o :: rest, 0, false⟩
      else
        let o2 := processHueObj can mat (a + (b - a) * u seed k) o
        let r := hueLoopScene u seed a b can mat p rest (k + 1)
        ⟨o2 :: r.objects, r.count + 1, r.ok⟩
    else
      let r := hueLoopScene u seed a b can mat p rest k
      ⟨o :: r.objects, r.count, r.ok⟩

/-- Configuration of the hue assigner (the `HueAssignProps` group). -/
structure HueProps where
  mode : String
  base_names : List String
  parent_object : Option String
  color_attribute_name : String
  hue_min : ℚ
  hue_max : ℚ
  random_seed : Nat
  target_material : Option Nat

/-- Result of one invocation of the hue assigner. -/
structure HueResult where
  status : String
  objects : List HueObj
  reportedCount : Option Nat
  errorMsg : Option String
deriving DecidableEq

/-- `OBJ_OT_assign_hue_material.execute`: require a material, require
`hue_min <= hue_max` (no auto-swap), resolve the targets per mode (name
patterns over the scene, or direct mesh children of the resolved
parent), then run the assignment loop with a fresh source seeded from
`random_seed`. -/
def hueExecute (u : Nat → Nat → ℚ) (props : HueProps) (objects : List HueObj)
    (active : Option String) : HueResult :=
  match props.target_material with
  | none => ⟨"CANCELLED", objects, none, some "Pick a material in the UI first."⟩
  | some mat =>
    if props.hue_min > props.hue_max then
      ⟨"CANCELLED", objects, none, some "Hue Min cannot be greater than Hue Max."⟩
    else if props.mode == "NAME" then
      if props.base_names.isEmpty || props.base_names.all (fun bn => bn.trim == "") then
        ⟨"CANCELLED", objects, none, some "Add at least one base name."⟩
      else
        let r := hueLoopScene u props.random_seed props.hue_min props.hue_max
          props.color_attribute_name mat (isMeshNameTarget props.base_names) objects 0
        if r.ok then ⟨"FINISHED", r.objects, some r.count, none⟩
        else ⟨"RAISED", r.objects, none, none⟩
    else
      match (match props.parent_object with | some p => some p | none => active) with
      | none => ⟨"CANCELLED", objects, none, some "Pick a Parent Object or set an active object."⟩
      | some par =>
        let r := hueLoopScene u props.random_seed props.hue_min props.hue_max
          props.color_attribute_name mat (isMeshChildTarget par) objects 0
        if r.ok then ⟨"FINISHED", r.objects, some r.count, none⟩
        else ⟨"RAISED", r.objects, none, none⟩

/-! ## Claim C1 — name-pattern grammar -/

theorem suffixOk_iff (l : List Char) : suffixOk l = true ↔
    l = [] ∨ ∃ ds, l = ' ' :: ds ∧ ds ≠ [] ∧ ∀ c ∈ ds, c.isDigit = true := by
  cases l with
  | nil => simp [suffixOk]
  | cons c ds =>
      cases ds with
      | nil => simp [suffixOk]
      | cons d ds2 =>
          simp only [suffixOk, Bool.and_eq_true, beq_iff_eq, Bool.not_eq_true',
            List.isEmpty_cons, List.all_eq_true]
          constructor
          · rintro ⟨⟨hc, -⟩, hall⟩
            exact Or.inr ⟨d :: ds2, by rw [hc], List.cons_ne_nil d ds2, hall⟩
          · rintro (h | ⟨ds3, heq, hne, hall⟩)
            · exact absurd h (List.cons_ne_nil c (d :: ds2))
            · injection heq with hc hds
              subst hds
              exact ⟨⟨hc, trivial⟩, hall⟩

/-- Claim C1, as stated, is false on the code: the compiled pattern is
`^base(?: \d+)?$`, which has no dot-plus-three-digits alternative, so the
base name Body does not match the host duplicate name Body.003. -/
theorem matchesBase_no_dot_suffix : matchesBase "Body" "Body.003" = false := by
  decide

/-- Claim C1 (amended): for every configured base name, an object name is
accepted iff, case-insensitively, it equals the base name or the base
name followed by a space and one or more digits; there is no dot-suffix
rule.  In particular Body matches Body, Body 2 (and BODY 17 in any
case), but not Bodyworks and not Body.003. -/
theorem matchesBase_grammar :
    (∀ base name : String, matchesBase base name = true ↔
      (lowerChars name = lowerChars base ∨
        ∃ ds, ds ≠ [] ∧ (∀ c ∈ ds, c.isDigit = true) ∧
          lowerChars name = lowerChars base ++ ' ' :: ds))
    ∧ matchesBase "Body" "Body" = true
    ∧ matchesBase "Body" "Body 2" = true
    ∧ matchesBase "body" "BODY 17" = true
    ∧ matchesBase "Body" "Bodyworks" = false
    ∧ matchesBase "Body" "Body.003" = false := by
  refine ⟨fun base name => ?_, by decide, by decide, by decide, by decide, by decide⟩
  simp only [matchesBase, Bool.and_eq_true, beq_iff_eq]
  constructor
  · rintro ⟨h1, h2⟩
    rcases (suffixOk_iff _).mp h2 with h | ⟨ds, hds, hne, hall⟩
    · left
      have h3 := List.take_append_drop (lowerChars base).length (lowerChars name)
      rw [h1, h, List.append_nil] at h3
      exact h3.symm
    · right
      refine ⟨ds, hne, hall, ?_⟩
      have h3 := List.take_append_drop (lowerChars base).length (lowerChars name)
      rw [h1, hds] at h3
      exact h3.symm
  · rintro (h | ⟨ds, hne, hall, h⟩)
    · exact ⟨by rw [h, List.take_length], by rw [h, List.drop_length]; rfl⟩
    · refine ⟨by rw [h, List.take_left], ?_⟩
      rw [h, List.drop_left]
      exact (suffixOk_iff _).mpr (Or.inr ⟨ds, rfl, hne, hall⟩)

/-! ## Sample fixtures used by witnesses -/

/-- A degenerate raw random stream (every draw is 0). -/
def uZero : Nat → ℚ := fun _ => 0

/-- A degenerate seeded raw random stream (every draw is 0). -/
def uuZero : Nat → Nat → ℚ := fun _ _ => 0

/-- A small mesh: 2 vertices, 3 loops, no slots, no attributes. -/
def meshA : Mesh := ⟨2, 3, [], [], []⟩

/-- Hue-assigner configuration with inverted bounds. -/
def propsInv : HueProps := ⟨"NAME", ["Body"], none, "Col", 3, 1, 0, some 7⟩

/-- A root with two children, the second of which has one child. -/
def sampleOTree : OTree Nat :=
  .node 0 [.node 1 [], .node 2 [.node 3 []]]

/-- A parent with two direct children (no faults). -/
def rcsSceneW : RcsScene :=
  ⟨[⟨"P", (1, 1, 1), none, false⟩, ⟨"B", (1, 1, 1), some "P", false⟩],
    none, some "P", 0, 0, "ABSOLUTE"⟩

/-! ## Claim C2 — traversal visits each node exactly once -/

/-- Claim C2: for every root of an acyclic object tree whose objects are
pairwise distinct (distinct payloads), `iter_hierarchy` yields exactly
the root and its transitive descendants, with no repetition, and its
length is 1 plus the number of descendants. -/
theorem iter_hierarchy_exactly_once {α : Type} (t : OTree α)
    (h : ((subnodes t).map OTree.val).Nodup) :
    (∀ x, x ∈ iter_hierarchy t ↔ x = t ∨ x ∈ descendants t) ∧
    (iter_hierarchy t).Nodup ∧
    (iter_hierarchy t).length = 1 + (descendants t).length := by
  have hperm := iter_hierarchy_perm t
  refine ⟨fun x => ?_, ?_, ?_⟩
  · rw [hperm.mem_iff, subnodes_eq_cons, List.mem_cons]
  · exact (hperm.nodup_iff).mpr (h.of_map)
  · rw [hperm.length_eq, subnodes_eq_cons, List.length_cons]
    omega

/-- Witness for C2 on a depth-2 tree with 4 distinct nodes. -/
theorem iter_hierarchy_exactly_once_witness :
    ((subnodes sampleOTree).map OTree.val).Nodup ∧
    ((∀ x, x ∈ iter_hierarchy sampleOTree ↔
        x = sampleOTree ∨ x ∈ descendants sampleOTree) ∧
      (iter_hierarchy sampleOTree).Nodup ∧
      (iter_hierarchy sampleOTree).length = 1 + (descendants sampleOTree).length) :=
  ⟨by decide, iter_hierarchy_exactly_once sampleOTree (by decide)⟩

/-! ## Claim C4 — inverted hue bounds abort with no mutation -/

/-- Claim C4: whenever `hue_min > hue_max`, the hue assigner cancels with
an error message and leaves every scene object untouched, in either
selection mode (the check precedes target resolution and the loop). -/
theorem hue_inverted_bounds_abort (u : Nat → Nat → ℚ) (props : HueProps)
    (objects : List HueObj) (active : Option String)
    (h : props.hue_min > props.hue_max) :
    (hueExecute u props objects active).status = "CANCELLED" ∧
    (hueExecute u props objects active).objects = objects ∧
    (hueExecute u props objects active).errorMsg.isSome = true := by
  cases hm : props.target_material with
  | none => simp [hueExecute, hm]
  | some mat => simp [hueExecute, hm, h]

/-- Witness for C4 at bounds (min, max) = (3, 1). -/
theorem hue_inverted_bounds_abort_witness :
    propsInv.hue_min > propsInv.hue_max ∧
    ((hueExecute uuZero propsInv [] none).status = "CANCELLED" ∧
     (hueExecute uuZero propsInv [] none).objects = [] ∧
     (hueExecute uuZero propsInv [] none).errorMsg.isSome = true) :=
  ⟨by decide, hue_inverted_bounds_abort uuZero propsInv [] none (by decide)⟩

/-! ## Claim C6 — inverted scale bounds are auto-swapped -/

/-- Claim C6: the scale randomizer invoked with inverted bounds
(min, max) = (a, b), a > b, behaves identically to the invocation with
(min, max) = (b, a): the bounds are normalized before any draw. -/
theorem rcs_inverted_bounds_swap (u : Nat → ℚ) (s : RcsScene) (a b : ℚ) (h : a > b) :
    rcsExecute u { s with rcs_min_scale := a, rcs_max_scale := b }
      = rcsExecute u { s with rcs_min_scale := b, rcs_max_scale := a } := by
  rcases s with ⟨objs, act, po, mn, mx, mode⟩
  simp only [rcsExecute, resolvedParent]
  have h1 : ¬ (b > a) := lt_asymm h
  cases po with
  | some p => simp [if_pos h, if_neg h1]
  | none =>
      cases act with
      | none => rfl
      | some p => simp [if_pos h, if_neg h1]

/-- Witness for C6 at bounds (5, 1) versus (1, 5). -/
theorem rcs_inverted_bounds_swap_witness :
    (5 : ℚ) > 1 ∧
    rcsExecute uZero { rcsSceneW with rcs_min_scale := 5, rcs_max_scale := 1 }
      = rcsExecute uZero { rcsSceneW with rcs_min_scale := 1, rcs_max_scale := 5 } :=
  ⟨by decide, rcs_inverted_bounds_swap uZero rcsSceneW 5 1 (by decide)⟩



/-! ## Preservation helpers for the hue per-object step -/

theorem hueAssignMaterial_colors (m : Mesh) (mat : Nat) :
    (hueAssignMaterial m mat).color_attributes = m.color_attributes := by
  unfold hueAssignMaterial
  split <;> rfl

theorem write_uniform_colors (m : Mesh) (n : String) (v : ℚ) :
    (write_uniform_float_attribute m n v).color_attributes = m.color_attributes := by
  unfold write_uniform_float_attribute
  split
  · split <;> rfl
  · rfl

theorem ensure_color_attribute_attrs (m : Mesh) (can : String) :
    (ensure_color_attribute m can).attributes = m.attributes := by
  unfold ensure_color_attribute
  split <;> rfl

theorem ensure_color_attribute_points (m : Mesh) (can : String) :
    (ensure_color_attribute m can).points = m.points := by
  unfold ensure_color_attribute
  split <;> rfl

theorem hueAssignMaterial_attrs (m : Mesh) (mat : Nat) :
    (hueAssignMaterial m mat).attributes = m.attributes := by
  unfold hueAssignMaterial
  split <;> rfl

theorem hueAssignMaterial_points (m : Mesh) (mat : Nat) :
    (hueAssignMaterial m mat).points = m.points := by
  unfold hueAssignMaterial
  split <;> rfl

/-! ## Claim C3 — material application cases -/

/-- Claim C3: applying material M to a node with an empty slot collection
yields exactly the one slot M; with N greater than 0 slots, all N slots
become M; with no data block or no slot collection, the node is unchanged
and contributes 0 to the reported success count. -/
theorem apply_material_slot_cases (o : AObj) (mat : Nat) :
    ((o.data.bind AData.materials) = some [] →
        ((apply_material_to_object o mat).data.bind AData.materials) = some [mat]) ∧
    (∀ mats, (o.data.bind AData.materials) = some mats → mats ≠ [] →
        ((apply_material_to_object o mat).data.bind AData.materials)
          = some (List.replicate mats.length mat)) ∧
    ((o.data.bind AData.materials) = none →
        apply_material_to_object o mat = o ∧
        (o.faulty = false → (amcApplyAll mat [o]).2 = 0)) := by
  rcases o with ⟨n, d, am, f⟩
  cases d with
  | none =>
      refine ⟨by simp, by simp, fun hn => ⟨rfl, fun hf => ?_⟩⟩
      simp [amcApplyAll, apply_material_to_object, hf]
  | some dd =>
      rcases dd with ⟨dm⟩
      cases dm with
      | none =>
          refine ⟨by simp, by simp, fun hn => ⟨rfl, fun hf => ?_⟩⟩
          simp [amcApplyAll, apply_material_to_object, hf]
      | some mats =>
          cases mats with
          | nil =>
              refine ⟨fun _ => by simp [apply_material_to_object],
                fun ms hms hne => ?_, by simp⟩
              have hms2 : ms = [] := by simpa using hms.symm
              subst hms2
              exact absurd rfl hne
          | cons m0 ms =>
              refine ⟨by simp, fun ms2 hms hne => ?_, by simp⟩
              have hms2 : ms2 = m0 :: ms := by simpa using hms.symm
              subst hms2
              simp [apply_material_to_object, List.map_const', List.replicate_succ]

/-- Witness for C3: a node with two slots gets both overwritten, and a
node without a data block is untouched and uncounted. -/
theorem apply_material_slot_cases_witness :
    ((⟨"T", some ⟨some [5, 7]⟩, none, false⟩ : AObj).data.bind AData.materials)
        = some [5, 7] ∧
    ((apply_material_to_object ⟨"T", some ⟨some [5, 7]⟩, none, false⟩ 9).data.bind
        AData.materials) = some (List.replicate ([5, 7] : List Nat).length 9) :=
  ⟨by decide,
    (apply_material_slot_cases ⟨"T", some ⟨some [5, 7]⟩, none, false⟩ 9).2.1
      [5, 7] (by decide) (by decide)⟩

/-! ## Claim C7 — slot assignment policy -/

/-- Claim C7 is false as stated: the hierarchy applier overwrites every
slot, not only index 0 — on slots [5, 7] with material 9 it produces
[9, 9], touching slot index 1. -/
theorem slot_assignment_not_only_index0 :
    ((apply_material_to_object ⟨"T", some ⟨some [5, 7]⟩, none, false⟩ 9).data.bind
        AData.materials) = some [9, 9] ∧
    ((apply_material_to_object ⟨"T", some ⟨some [5, 7]⟩, none, false⟩ 9).data.bind
        AData.materials) ≠ some [9, 7] := by
  decide

/-- Claim C7 (amended): the hue assigner's slot assignment overwrites
only slot index 0 when slots exist (all other indices are untouched) and
appends one slot when none exist; the hierarchy applier appends one slot
when none exist but overwrites every existing slot. -/
theorem slot_assignment_policies (m : Mesh) (o : AObj) (mat : Nat) :
    (m.materials = [] → (hueAssignMaterial m mat).materials = [mat]) ∧
    (m.materials ≠ [] →
        (hueAssignMaterial m mat).materials = m.materials.set 0 mat ∧
        ∀ i, 0 < i → (hueAssignMaterial m mat).materials[i]? = m.materials[i]?) ∧
    ((o.data.bind AData.materials) = some [] →
        ((apply_material_to_object o mat).data.bind AData.materials) = some [mat]) ∧
    (∀ mats, (o.data.bind AData.materials) = some mats → mats ≠ [] →
        ((apply_material_to_object o mat).data.bind AData.materials)
          = some (mats.map (fun _ => mat))) := by
  refine ⟨fun hm => ?_, fun hm => ⟨?_, fun i hi => ?_⟩, fun hs => ?_, fun mats hs hne => ?_⟩
  · simp [hueAssignMaterial, hm]
  · simp [hueAssignMaterial, List.isEmpty_iff, hm]
  · rw [hueAssignMaterial, if_neg (by simpa [List.isEmpty_iff] using hm)]
    exact List.getElem?_set_ne (by omega)
  · exact (apply_material_slot_cases o mat).1 hs
  · rcases o with ⟨n, d, am, f⟩
    cases d with
    | none => simp at hs
    | some dd =>
        rcases dd with ⟨dm⟩
        cases dm with
        | none => simp at hs
        | some ms =>
            obtain rfl : ms = mats := by simpa using hs
            cases ms with
            | nil => exact absurd rfl hne
            | cons m0 ms2 => simp [apply_material_to_object]

/-- A mesh with two existing material slots. -/
def meshB : Mesh := ⟨2, 3, [5, 7], [], []⟩

/-- Witness for C7 (amended) on a mesh with slots [5, 7]: the hue tool
writes slot 0 only, leaving slot 1 at its old value. -/
theorem slot_assignment_policies_witness :
    meshB.materials ≠ [] ∧
    (hueAssignMaterial meshB 9).materials = meshB.materials.set 0 9 ∧
    (hueAssignMaterial meshB 9).materials[1]? = meshB.materials[1]? :=
  ⟨by decide,
    ((slot_assignment_policies meshB ⟨"T", none, none, false⟩ 9).2.1 (by decide)).1,
    ((slot_assignment_policies meshB ⟨"T", none, none, false⟩ 9).2.1 (by decide)).2
      1 (by decide)⟩

/-! ## Claim C10 — color attribute is ensured, existing data untouched -/

/-- Claim C10: the hue assigner ensures a color attribute with the
configured name on each processed mesh: when absent, a CORNER-domain
BYTE_COLOR attribute is appended with every entry opaque white; when
present, the mesh's color attributes are untouched; and the per-object
step changes color attributes exactly as `ensure_color_attribute` does. -/
theorem ensure_color_attribute_spec (m : Mesh) (can : String) (o : HueObj)
    (mat : Nat) (hue : ℚ) :
    (m.color_attributes.find? (fun a => a.name == can) = none →
      (ensure_color_attribute m can).color_attributes
        = m.color_attributes
            ++ [⟨can, "CORNER", "BYTE_COLOR", List.replicate m.corners (1, 1, 1, 1)⟩]) ∧
    (∀ a, m.color_attributes.find? (fun a => a.name == can) = some a →
      ensure_color_attribute m can = m) ∧
    ((processHueObj can mat hue o).data.color_attributes
        = (ensure_color_attribute o.data can).color_attributes) := by
  refine ⟨fun h => ?_, fun a ha => ?_, ?_⟩
  · rw [ensure_color_attribute, h]
    simp [List.map_const']
  · rw [ensure_color_attribute, ha]
  · show (write_uniform_float_attribute
        (hueAssignMaterial (ensure_color_attribute o.data can) mat)
        "hue_adjust" hue).color_attributes = _
    rw [write_uniform_colors, hueAssignMaterial_colors]

/-- Witness for C10 on a mesh with no color attributes and 3 loops. -/
theorem ensure_color_attribute_spec_witness :
    (meshA.color_attributes.find? (fun a => a.name == "Col") = none) ∧
    (ensure_color_attribute meshA "Col").color_attributes
      = meshA.color_attributes
          ++ [⟨"Col", "CORNER", "BYTE_COLOR", List.replicate meshA.corners (1, 1, 1, 1)⟩] :=
  ⟨by decide,
    (ensure_color_attribute_spec meshA "Col" ⟨"A", "MESH", none, meshA, false⟩ 7 0).1
      (by decide)⟩



/-! ## Claim C9 — hue loop faults propagate -/

/-- Claim C9: in the hue assigner's per-object loop there is no local
catch: a fault at one target stops the loop, leaving that target and
every later object untouched, while the mutations already applied to the
earlier targets (identical to running the loop on the prefix alone)
remain in place. -/
theorem hue_fault_propagates (u : Nat → Nat → ℚ) (seed : Nat) (a b : ℚ) (can : String)
    (mat : Nat) (p : HueObj → Bool) (l₁ l₂ : List HueObj) (o : HueObj) (k : Nat)
    (h₁ : ∀ x ∈ l₁, p x = true → x.faulty = false)
    (hp : p o = true) (hf : o.faulty = true) :
    hueLoopScene u seed a b can mat p (l₁ ++ o :: l₂) k =
      ⟨(hueLoopScene u seed a b can mat p l₁ k).objects ++ o :: l₂,
        (l₁.filter p).length, false⟩ := by
  induction l₁ generalizing k with
  | nil => simp [hueLoopScene, hp, hf]
  | cons x xs ih =>
      have htail : ∀ y ∈ xs, p y = true → y.faulty = false :=
        fun y hy => h₁ y (List.mem_cons_of_mem x hy)
      by_cases hx : p x = true
      · have hxf : x.faulty = false := h₁ x (List.mem_cons_self x xs) hx
        simp [hueLoopScene, hx, hxf, ih (k + 1) htail]
      · have hx2 : p x = false := by simpa using hx
        simp [hueLoopScene, hx2, ih k htail]

/-- A non-faulty mesh child of P. -/
def hueA : HueObj := ⟨"A", "MESH", some "P", meshA, false⟩

/-- A faulty mesh child of P. -/
def hueB : HueObj := ⟨"B", "MESH", some "P", meshA, true⟩

/-- Another non-faulty mesh child of P. -/
def hueC : HueObj := ⟨"C", "MESH", some "P", meshA, false⟩

/-- Witness for C9: the faulty second child aborts the loop, leaving it
and the third child untouched. -/
theorem hue_fault_propagates_witness :
    (∀ x ∈ [hueA], isMeshChildTarget "P" x = true → x.faulty = false) ∧
    isMeshChildTarget "P" hueB = true ∧ hueB.faulty = true ∧
    hueLoopScene uuZero 0 0 1 "Col" 7 (isMeshChildTarget "P") ([hueA] ++ hueB :: [hueC]) 0 =
      ⟨(hueLoopScene uuZero 0 0 1 "Col" 7 (isMeshChildTarget "P") [hueA] 0).objects
          ++ hueB :: [hueC],
        ([hueA].filter (isMeshChildTarget "P")).length, false⟩ :=
  ⟨by decide, by decide, by decide,
    hue_fault_propagates uuZero 0 0 1 "Col" 7 (isMeshChildTarget "P") [hueA] [hueC] hueB 0
      (by decide) (by decide) (by decide)⟩

/-! ## Claim C8 — per-element fault handling and reported counts -/

/-- Scene with one faulty child (A) and one healthy child (B) of P. -/
def rcsSceneCex : RcsScene :=
  ⟨[⟨"P", (1, 1, 1), none, false⟩, ⟨"A", (1, 1, 1), some "P", true⟩,
    ⟨"B", (1, 1, 1), some "P", false⟩],
    none, some "P", 2, 2, "ABSOLUTE"⟩

/-- Claim C8 is false as stated for the scale randomizer: with children
A (faulty, skipped unchanged) and B (scaled), only one child is
successfully processed, yet the report says 2 — `len(children)`. -/
theorem rcs_report_counts_skipped :
    (rcsExecute uZero rcsSceneCex).reportedCount = some 2 ∧
    (rcsExecute uZero rcsSceneCex).objects.countP
        (fun o => !decide (o.scale = (1, 1, 1))) = 1 := by
  constructor
  · rfl
  · simp only [rcsExecute, rcsSceneCex, resolvedParent, rcsLoop, isChildOf, uniformDraw,
      rcsScaleChild, uZero]
    rw [if_neg (by decide)]
    simp [List.countP_cons]

/-- Claim C8 (amended): in both traversal tools a per-element fault is
caught and does not stop the remaining elements; the hierarchy applier
reports the number of non-faulty nodes whose data exposes a slot
collection, while the scale randomizer reports the total number of
direct children, faulted ones included. -/
theorem per_element_fault_policy :
    (∀ (mat : Nat) (l : List AObj),
        (amcApplyAll mat l).1
            = l.map (fun o => if o.faulty then o else apply_material_to_object o mat) ∧
        (amcApplyAll mat l).2
            = l.countP (fun o => !o.faulty
                && ((apply_material_to_object o mat).data.bind AData.materials).isSome))
    ∧ (∀ (u : Nat → ℚ) (a b : ℚ) (mode : String) (p : RcsObj → Bool)
        (l₁ l₂ : List RcsObj) (o : RcsObj) (k : Nat), p o = true → o.faulty = true →
        rcsLoop u a b mode p (l₁ ++ o :: l₂) k
          = rcsLoop u a b mode p l₁ k ++ o :: rcsLoop u a b mode p l₂ (k + l₁.countP p + 1))
    ∧ (∀ (u : Nat → ℚ) (s : RcsScene) (par : String),
        resolvedParent s = some par →
        s.objects.filter (isChildOf par) ≠ [] →
        (rcsExecute u s).reportedCount = some (s.objects.filter (isChildOf par)).length) := by
  refine ⟨fun mat l => ?_, fun u a b mode p l₁ l₂ o k hp hf => ?_, fun u s par hpar hne => ?_⟩
  · induction l with
    | nil => exact ⟨rfl, rfl⟩
    | cons x xs ih =>
        refine ⟨?_, ?_⟩
        · by_cases hx : x.faulty <;> simp [amcApplyAll, hx, ih.1]
        · by_cases hx : x.faulty <;>
            by_cases hs : ((apply_material_to_object x mat).data.bind AData.materials).isSome <;>
              simp [amcApplyAll, hx, hs, ih.2, List.countP_cons]
  · induction l₁ generalizing k with
    | nil => simp [rcsLoop, hp, hf]
    | cons x xs ih =>
        by_cases hx : p x = true
        · simp only [List.cons_append, List.append_eq, rcsLoop, hx, if_true]
          rw [ih (k + 1)]
          have harith : k + 1 + List.countP p xs + 1 = k + List.countP p (x :: xs) + 1 := by
            simp [List.countP_cons, hx]
            omega
          rw [harith]
        · have hx2 : p x = false := by simpa using hx
          simp only [List.cons_append, List.append_eq, rcsLoop, hx2, if_false,
            Bool.false_eq_true]
          rw [ih k]
          have harith : k + List.countP p xs + 1 = k + List.countP p (x :: xs) + 1 := by
            simp [List.countP_cons, hx2]
          rw [harith]
  · rw [rcsExecute, hpar]
    have : (s.objects.filter (isChildOf par)).isEmpty = false := by
      simpa [List.isEmpty_iff] using hne
    simp [this]

/-- Witness for C8 (amended): concrete instantiations of the fault-skip
decomposition and of the reported counts. -/
theorem per_element_fault_policy_witness :
    (isChildOf "P" ⟨"A", (1, 1, 1), some "P", true⟩ = true ∧
      (⟨"A", (1, 1, 1), some "P", true⟩ : RcsObj).faulty = true ∧
      rcsLoop uZero 2 2 "ABSOLUTE" (isChildOf "P")
          ([] ++ (⟨"A", (1, 1, 1), some "P", true⟩ : RcsObj)
            :: [⟨"B", (1, 1, 1), some "P", false⟩]) 0
        = rcsLoop uZero 2 2 "ABSOLUTE" (isChildOf "P") [] 0
            ++ (⟨"A", (1, 1, 1), some "P", true⟩ : RcsObj)
            :: rcsLoop uZero 2 2 "ABSOLUTE" (isChildOf "P")
                [⟨"B", (1, 1, 1), some "P", false⟩] (0 + List.countP (isChildOf "P") [] + 1)) ∧
    (resolvedParent rcsSceneCex = some "P" ∧
      rcsSceneCex.objects.filter (isChildOf "P") ≠ [] ∧
      (rcsExecute uZero rcsSceneCex).reportedCount
        = some (rcsSceneCex.objects.filter (isChildOf "P")).length) :=
  ⟨⟨by decide, by decide,
      per_element_fault_policy.2.1 uZero 2 2 "ABSOLUTE" (isChildOf "P") []
        [⟨"B", (1, 1, 1), some "P", false⟩] ⟨"A", (1, 1, 1), some "P", true⟩ 0
        (by decide) (by decide)⟩,
    ⟨by decide, by decide,
      per_element_fault_policy.2.2 uZero rcsSceneCex "P" (by decide) (by decide)⟩⟩



/-! ## Claim C5 — deterministic seeded hue assignment -/

/-- The `hue_adjust` attribute of an object, looked up by name. -/
def hueAttrOf (o : HueObj) : Option MeshAttribute :=
  o.data.attributes.find? (fun a => a.name == "hue_adjust")

theorem write_uniform_find (m : Mesh) (n : String) (v : ℚ) :
    ∃ ds, (write_uniform_float_attribute m n v).attributes.find? (fun a => a.name == n)
        = some ⟨n, "FLOAT", "POINT", ds⟩ ∧ ∀ x ∈ ds, x = v := by
  cases hfind : m.attributes.find? (fun a => a.name == n) with
  | none =>
      simp only [write_uniform_float_attribute, hfind]
      refine ⟨(List.replicate m.points 0).map (fun _ => v), ?_, ?_⟩
      · rw [List.find?_append, List.find?_eq_none.mpr, Option.none_or]
        · simp [List.find?_cons]
        · intro x hx
          have := List.find?_eq_none.mp hfind x hx
          simpa using this
      · intro x hx
        rcases List.mem_map.mp hx with ⟨y, -, rfl⟩
        rfl
  | some attr =>
      simp only [write_uniform_float_attribute, hfind]
      by_cases htype : (attr.data_type == "FLOAT" && attr.domain == "POINT") = true
      · rw [if_pos htype]
        have hname : attr.name = n := by
          have := List.find?_some hfind
          simpa using this
        rw [List.find?_map]
        have hcomp : ((fun a => a.name == n) ∘ fun (a : MeshAttribute) =>
            if a.name == n then { a with data := a.data.map (fun _ => v) } else a)
              = fun (a : MeshAttribute) => a.name == n := by
          funext a
          by_cases ha : (a.name == n) = true <;> simp [ha, Function.comp]
        rw [hcomp, hfind]
        obtain ⟨ht1, ht2⟩ := by simpa using htype
        refine ⟨attr.data.map (fun _ => v), ?_, ?_⟩
        · rcases attr with ⟨an, adt, ad, add⟩
          simp only at hname ht1 ht2
          subst hname
          subst ht1
          subst ht2
          simp
        · intro x hx
          rcases List.mem_map.mp hx with ⟨y, -, rfl⟩
          rfl
      · rw [if_neg htype]
        refine ⟨(List.replicate m.points 0).map (fun _ => v), ?_, ?_⟩
        · rw [List.find?_append, List.find?_eq_none.mpr, Option.none_or]
          · simp [List.find?_cons]
          · intro x hx
            have := List.mem_filter.mp hx
            simpa using this.2
        · intro x hx
          rcases List.mem_map.mp hx with ⟨y, -, rfl⟩
          rfl

theorem processHueObj_hue_attr (can : String) (mat : Nat) (hue : ℚ) (o : HueObj) :
    ∃ ds, hueAttrOf (processHueObj can mat hue o)
        = some ⟨"hue_adjust", "FLOAT", "POINT", ds⟩ ∧ ∀ x ∈ ds, x = hue := by
  unfold hueAttrOf processHueObj
  exact write_uniform_find (hueAssignMaterial (ensure_color_attribute o.data can) mat)
    "hue_adjust" hue

theorem hueLoopScene_formula (u : Nat → Nat → ℚ) (seed : Nat) (a b : ℚ) (can : String)
    (mat : Nat) (p : HueObj → Bool)
    (hpres : ∀ o hue, p (processHueObj can mat hue o) = p o) :
    ∀ (l : List HueObj) (k : Nat), (∀ o ∈ l, p o = true → o.faulty = false) →
      (hueLoopScene u seed a b can mat p l k).ok = true ∧
      (hueLoopScene u seed a b can mat p l k).count = (l.filter p).length ∧
      ((hueLoopScene u seed a b can mat p l k).objects.filter p).length
          = (l.filter p).length ∧
      (∀ j o2, ((hueLoopScene u seed a b can mat p l k).objects.filter p)[j]? = some o2 →
        ∃ ds, hueAttrOf o2 = some ⟨"hue_adjust", "FLOAT", "POINT", ds⟩ ∧
          ∀ x ∈ ds, x = a + (b - a) * u seed (k + j))
  | [], k, _ => by
      refine ⟨rfl, rfl, rfl, fun j o2 hj => ?_⟩
      simp [hueLoopScene] at hj
  | o :: rest, k, hfault => by
      have htail : ∀ x ∈ rest, p x = true → x.faulty = false :=
        fun x hx => hfault x (List.mem_cons_of_mem o hx)
      have ih := hueLoopScene_formula u seed a b can mat p hpres rest (k + 1) htail
      by_cases hp0 : p o = true
      · have hf0 : o.faulty = false := hfault o (List.mem_cons_self o rest) hp0
        have hp2 : p (processHueObj can mat (a + (b - a) * u seed k) o) = true := by
          rw [hpres]; exact hp0
        refine ⟨?_, ?_, ?_, ?_⟩
        · simp [hueLoopScene, hp0, hf0, ih.1]
        · simp [hueLoopScene, hp0, hf0, ih.2.1, List.filter_cons_of_pos hp0]
        · simp [hueLoopScene, hp0, hf0, List.filter_cons_of_pos hp0,
            List.filter_cons_of_pos hp2, ih.2.2.1]
        · intro j o2 hj
          simp only [hueLoopScene, hp0, hf0, if_true, Bool.false_eq_true, if_false] at hj
          rw [List.filter_cons_of_pos hp2] at hj
          cases j with
          | zero =>
              have ho2 : o2 = processHueObj can mat (a + (b - a) * u seed k) o := by
                simpa using hj.symm
              subst ho2
              have hres := processHueObj_hue_attr can mat (a + (b - a) * u seed k) o
              simpa using hres
          | succ j2 =>
              have hj2 := ih.2.2.2 j2 o2 (by simpa using hj)
              have harith : k + 1 + j2 = k + (j2 + 1) := by omega
              rw [harith] at hj2
              exact hj2
      · have hp1 : p o = false := by simpa using hp0
        refine ⟨?_, ?_, ?_, ?_⟩
        · have ih0 := hueLoopScene_formula u seed a b can mat p hpres rest k htail
          simp [hueLoopScene, hp1, ih0.1]
        · have ih0 := hueLoopScene_formula u seed a b can mat p hpres rest k htail
          simp [hueLoopScene, hp1, ih0.2.1, List.filter_cons_of_neg hp0]
        · have ih0 := hueLoopScene_formula u seed a b can mat p hpres rest k htail
          simp [hueLoopScene, hp1, List.filter_cons_of_neg hp0, ih0.2.2.1]
        · intro j o2 hj
          have ih0 := hueLoopScene_formula u seed a b can mat p hpres rest k htail
          simp only [hueLoopScene, hp1, Bool.false_eq_true, if_false] at hj
          rw [List.filter_cons_of_neg hp0] at hj
          exact ih0.2.2.2 j o2 hj

/-- Claim C5: with a fault-free target selection, the hue assigner's loop
completes, processes every target, and the value written into the k-th
target's `hue_adjust` attribute (uniformly across its entries) is
`hue_min + (hue_max - hue_min) * u seed k` — a function of the seed, the
bounds and the position k only.  Since the embedded seeded source `u` is
a pure function, two invocations with the same seed, bounds and target
sequence therefore write identical value sequences. -/
theorem hue_assignment_deterministic (u : Nat → Nat → ℚ) (seed : Nat) (a b : ℚ)
    (can : String) (mat : Nat) (p : HueObj → Bool) (l : List HueObj)
    (hpres : ∀ o hue, p (processHueObj can mat hue o) = p o)
    (hfault : ∀ o ∈ l, p o = true → o.faulty = false) :
    (hueLoopScene u seed a b can mat p l 0).ok = true ∧
    (hueLoopScene u seed a b can mat p l 0).count = (l.filter p).length ∧
    ((hueLoopScene u seed a b can mat p l 0).objects.filter p).length
        = (l.filter p).length ∧
    (∀ j o2, ((hueLoopScene u seed a b can mat p l 0).objects.filter p)[j]? = some o2 →
      ∃ ds, hueAttrOf o2 = some ⟨"hue_adjust", "FLOAT", "POINT", ds⟩ ∧
        ∀ x ∈ ds, x = a + (b - a) * u seed j) := by
  have h := hueLoopScene_formula u seed a b can mat p hpres l 0 hfault
  refine ⟨h.1, h.2.1, h.2.2.1, fun j o2 hj => ?_⟩
  have := h.2.2.2 j o2 hj
  simpa using this

/-- Witness for C5: two healthy mesh children of P. -/
theorem hue_assignment_deterministic_witness :
    (∀ o hue, isMeshChildTarget "P" (processHueObj "Col" 7 hue o)
        = isMeshChildTarget "P" o) ∧
    (∀ o ∈ [hueA, hueC], isMeshChildTarget "P" o = true → o.faulty = false) ∧
    ((hueLoopScene uuZero 0 0 1 "Col" 7 (isMeshChildTarget "P") [hueA, hueC] 0).ok = true ∧
     (hueLoopScene uuZero 0 0 1 "Col" 7 (isMeshChildTarget "P") [hueA, hueC] 0).count
        = ([hueA, hueC].filter (isMeshChildTarget "P")).length ∧
     ((hueLoopScene uuZero 0 0 1 "Col" 7 (isMeshChildTarget "P")
          [hueA, hueC] 0).objects.filter (isMeshChildTarget "P")).length
        = ([hueA, hueC].filter (isMeshChildTarget "P")).length ∧
     (∀ j o2, ((hueLoopScene uuZero 0 0 1 "Col" 7 (isMeshChildTarget "P")
            [hueA, hueC] 0).objects.filter (isMeshChildTarget "P"))[j]? = some o2 →
        ∃ ds, hueAttrOf o2 = some ⟨"hue_adjust", "FLOAT", "POINT", ds⟩ ∧
          ∀ x ∈ ds, x = 0 + (1 - 0) * uuZero 0 j)) :=
  ⟨fun o hue => rfl, by decide,
    hue_assignment_deterministic uuZero 0 0 1 "Col" 7 (isMeshChildTarget "P") [hueA, hueC]
      (fun o hue => rfl) (by decide)⟩

end MakerScape
